import Mathlib

/-!
Verification development for the DeveloperHub community membership and
role-based authorization core.

The definitions below are a shallow embedding of the TypeScript source:

* `src/backend/src/community/utils/communityManagement.ts` —
  the permission enum, the role→permission table `RolePermissions`,
  the Prisma-role→table-role map `roleMapping`, and `roleGuard`;
* `src/backend/src/community/controllers/community.controller.ts` —
  the `CommunityController` wired in `community.route.ts`
  (`createCommunity`, `joinCommunity`, `leaveCommunity`,
  `updateMemberRole`, `isUserAdminOrOwner`);
* `src/backend/src/community/controllers/task.controller.ts` —
  the second (legacy) `CommunityController` kept in that file, of which we
  embed `leaveCommunity` (as `leaveCommunityLegacy`) and
  `generateInviteLink`.

Database state is modelled as explicit lists of rows; Prisma calls become
list operations; a thrown error becomes `Except.error`. An `Except.error`
result carries no successor state, so "performs no mutation" is intrinsic:
the caller's state is exactly the pre-state.
-/

namespace DevHub

/-- Prisma `CommunityRole` enum (schema order as used by the source). -/
inductive CommunityRole where
  | OWNER
  | ADMIN
  | MANAGER
  | DEVELOPER_I
  | DEVELOPER_II
  | DEVELOPER_III
  | VIEWER
deriving DecidableEq, Fintype, Repr

/-- `Permissions` enum of `communityManagement.ts`. -/
inductive Permission where
  | CREATE_WORKSPACE
  | EDIT_WORKSPACE
  | DELETE_WORKSPACE
  | MANAGE_WORKSPACE_SETTINGS
  | ADD_MEMBER
  | CHANGE_MEMBER_ROLE
  | REMOVE_MEMBER
  | CREATE_PROJECT
  | EDIT_PROJECT
  | DELETE_PROJECT
  | CREATE_TASK
  | EDIT_TASK
  | DELETE_TASK
  | VIEW_ONLY
  | UPDATE_TASK
  | ASSIGN_TASK
deriving DecidableEq, Fintype, Repr

/-- `RoleType` of `communityManagement.ts`:
`'OWNER' | 'ADMIN' | 'MANAGER' | 'DEVELOPER I' | 'DEVELOPER II' | 'DEVELOPER III'`. -/
inductive RoleType where
  | OWNER
  | ADMIN
  | MANAGER
  | DEVELOPER_I
  | DEVELOPER_II
  | DEVELOPER_III
deriving DecidableEq, Fintype, Repr

open Permission in
/-- `RolePermissions` record of `communityManagement.ts`, list for list. -/
def RolePermissions : RoleType → List Permission
  | .OWNER =>
      [CREATE_WORKSPACE, EDIT_WORKSPACE, DELETE_WORKSPACE,
       MANAGE_WORKSPACE_SETTINGS, ADD_MEMBER, CHANGE_MEMBER_ROLE,
       REMOVE_MEMBER, CREATE_PROJECT, EDIT_PROJECT, DELETE_PROJECT,
       CREATE_TASK, EDIT_TASK, DELETE_TASK, VIEW_ONLY]
  | .ADMIN =>
      [ADD_MEMBER, CREATE_PROJECT, EDIT_PROJECT, DELETE_PROJECT,
       CREATE_TASK, EDIT_TASK, DELETE_TASK, MANAGE_WORKSPACE_SETTINGS,
       VIEW_ONLY]
  | .MANAGER =>
      [CREATE_PROJECT, EDIT_PROJECT, CREATE_TASK, EDIT_TASK, DELETE_TASK,
       VIEW_ONLY]
  | .DEVELOPER_I =>
      [VIEW_ONLY, CREATE_TASK, EDIT_TASK]
  | .DEVELOPER_II =>
      [VIEW_ONLY, CREATE_TASK, EDIT_TASK, DELETE_TASK]
  | .DEVELOPER_III =>
      [VIEW_ONLY, CREATE_TASK, EDIT_TASK, DELETE_TASK, EDIT_PROJECT]

/-- `roleMapping` of `communityManagement.ts`: Prisma `CommunityRole` to
`RoleType`; `VIEWER` maps to `'DEVELOPER I'`. -/
def roleMapping : CommunityRole → RoleType
  | .OWNER => .OWNER
  | .ADMIN => .ADMIN
  | .MANAGER => .MANAGER
  | .DEVELOPER_I => .DEVELOPER_I
  | .DEVELOPER_II => .DEVELOPER_II
  | .DEVELOPER_III => .DEVELOPER_III
  | .VIEWER => .DEVELOPER_I

/-- `roleGuard` of `communityManagement.ts`. `role = none` models the
`undefined` argument; a thrown `UnauthorizedException` becomes
`Except.error` with the exception's message. -/
def roleGuard (role : Option CommunityRole)
    (requiredPermissions : List Permission) : Except String Unit :=
  match role with
  | none => .error "Unauthorized"
  | some r =>
      let mappedRole := roleMapping r
      let permissions := RolePermissions mappedRole
      let hasPermission :=
        requiredPermissions.all (fun permission => permissions.contains permission)
      if hasPermission then .ok () else .error "Insufficient permissions"

/-- A `Community` row. The source also stores `name`, `description` and
`createdBy`; no claim concerns them, the lifecycle logic branches only on
`id` and `isPrivate`. -/
structure Community where
  id : String
  isPrivate : Bool
deriving DecidableEq, Repr

/-- A `CommunityMember` row, keyed by `(communityId, userId)`
(Prisma unique `communityId_userId`). -/
structure Membership where
  communityId : String
  userId : String
  role : CommunityRole
deriving DecidableEq, Repr

/-- A `CommunityInvite` row: `{ code, communityId, userId, expiresAt }`.
`expiresAt` is milliseconds since the epoch. -/
structure Invite where
  code : String
  communityId : String
  userId : String
  expiresAt : Nat
deriving DecidableEq, Repr

/-- The three Prisma tables the membership core touches. -/
structure DB where
  communities : List Community
  members : List Membership
  invites : List Invite
deriving DecidableEq, Repr

/-- Error taxonomy of `community.controller.ts`: `NotFoundError` (404),
`ForbiddenError` (403), and a plain `Error` thrown on lifecycle-invariant
conflicts (rendered 400 by the legacy controller, which returns
`res.status(400)` directly at the same program points). -/
inductive CtrlError where
  | notFound (msg : String)
  | forbidden (msg : String)
  | conflict (msg : String)
deriving DecidableEq, Repr

/-- `prisma.community.findUnique({ where: { id } })`. -/
def findCommunity (db : DB) (id : String) : Option Community :=
  db.communities.find? (fun c => c.id == id)

/-- `prisma.communityMember.findUnique({ where: { communityId_userId } })`. -/
def findMember (db : DB) (communityId userId : String) : Option Membership :=
  db.members.find? (fun m => m.communityId == communityId && m.userId == userId)

/-- `prisma.communityMember.count({ where: { communityId, role: 'ADMIN' } })`. -/
def adminCount (db : DB) (communityId : String) : Nat :=
  (db.members.filter
    (fun m => m.communityId == communityId && m.role == CommunityRole.ADMIN)).length

/-- `prisma.communityMember.count({ where: { communityId } })`. -/
def memberCount (db : DB) (communityId : String) : Nat :=
  (db.members.filter (fun m => m.communityId == communityId)).length

/-- Count of members of the community holding `OWNER` (used to state C10;
the source never computes this count, which is the point of that claim). -/
def ownerCount (db : DB) (communityId : String) : Nat :=
  (db.members.filter
    (fun m => m.communityId == communityId && m.role == CommunityRole.OWNER)).length

/-- `createCommunity` of the routed `CommunityController`
(`community.controller.ts`): creates the `Community` row and one
`Membership(creator, OWNER)` in a single `$transaction`. Zod length
validation of `name`/`description` happens upstream and is not modelled
(no claim concerns it). `id` stands for the generated primary key. -/
def createCommunity (db : DB) (userId : String) (id : String)
    (isPrivate : Bool) : DB × Community :=
  let community : Community := { id := id, isPrivate := isPrivate }
  ({ db with
      communities := db.communities ++ [community],
      members := db.members ++ [⟨id, userId, CommunityRole.OWNER⟩] },
    community)

/-- `joinCommunity` of the routed `CommunityController`
(`community.controller.ts`). On success returns the new state and the
created `Membership` row. The already-member `throw new Error(...)` is the
`conflict` variant. Note the source rejects private communities before the
membership check and accepts no invite token at all. -/
def joinCommunity (db : DB) (userId communityId : String) :
    Except CtrlError (DB × Membership) :=
  match findCommunity db communityId with
  | none => .error (.notFound "Community not found")
  | some community =>
      if community.isPrivate then
        .error (.forbidden "Cannot join private community without invite")
      else
        match findMember db communityId userId with
        | some _ => .error (.conflict "User is already a member of this community")
        | none =>
            let membership : Membership := ⟨communityId, userId, CommunityRole.VIEWER⟩
            .ok ({ db with members := db.members ++ [membership] }, membership)

/-- `leaveCommunity` of the routed `CommunityController`
(`community.controller.ts`). Owner branch: one `$transaction` deleting all
memberships, all invites, and the community. Admin branch: last-admin
guard. Otherwise: delete the membership, re-count, and if zero members
remain delete the community row only (the source's orphan-cleanup
`$transaction` contains a single `community.delete`; it does not touch
`communityInvite`). The returned string is the response message. -/
def leaveCommunity (db : DB) (userId communityId : String) :
    Except CtrlError (DB × String) :=
  match findCommunity db communityId with
  | none => .error (.notFound "Community not found")
  | some _ =>
      match findMember db communityId userId with
      | none => .error (.notFound "You are not a member of this community")
      | some membership =>
          if membership.role == CommunityRole.OWNER then
            .ok ({ db with
                    members := db.members.filter
                      (fun m => !(m.communityId == communityId)),
                    invites := db.invites.filter
                      (fun i => !(i.communityId == communityId)),
                    communities := db.communities.filter
                      (fun c => !(c.id == communityId)) },
                  "Community deleted as owner left")
          else if membership.role == CommunityRole.ADMIN
              && adminCount db communityId <= 1 then
            .error (.conflict "Cannot leave as the last admin")
          else
            let db1 := { db with
              members := db.members.filter
                (fun m => !(m.communityId == communityId && m.userId == userId)) }
            if memberCount db1 communityId == 0 then
              .ok ({ db1 with
                      communities := db1.communities.filter
                        (fun c => !(c.id == communityId)) },
                    "Left the community successfully")
            else
              .ok (db1, "Left the community successfully")

/-- `leaveCommunity` of the legacy `CommunityController` kept in
`task.controller.ts`. Identical to the routed one except that its
orphan-cleanup `$transaction` also deletes the community's invites, and
its not-a-member response is a 400 (modelled `conflict`) rather than 404. -/
def leaveCommunityLegacy (db : DB) (userId communityId : String) :
    Except CtrlError (DB × String) :=
  match findCommunity db communityId with
  | none => .error (.notFound "Community not found")
  | some _ =>
      match findMember db communityId userId with
      | none => .error (.conflict "You are not a member of this community")
      | some membership =>
          if membership.role == CommunityRole.OWNER then
            .ok ({ db with
                    members := db.members.filter
                      (fun m => !(m.communityId == communityId)),
                    invites := db.invites.filter
                      (fun i => !(i.communityId == communityId)),
                    communities := db.communities.filter
                      (fun c => !(c.id == communityId)) },
                  "Community deleted as owner left")
          else if membership.role == CommunityRole.ADMIN
              && adminCount db communityId <= 1 then
            .error (.conflict "Cannot leave as the last admin")
          else
            let db1 := { db with
              members := db.members.filter
                (fun m => !(m.communityId == communityId && m.userId == userId)) }
            if memberCount db1 communityId == 0 then
              .ok ({ db1 with
                      invites := db1.invites.filter
                        (fun i => !(i.communityId == communityId)),
                      communities := db1.communities.filter
                        (fun c => !(c.id == communityId)) },
                    "Left the community successfully")
            else
              .ok (db1, "Left the community successfully")

/-- `isUserAdminOrOwner` of the routed `CommunityController`: throws
`NotFoundError` for a non-member, `ForbiddenError` unless the member's
role is `ADMIN` or `OWNER`. -/
def isUserAdminOrOwner (db : DB) (communityId userId : String) :
    Except CtrlError Bool :=
  match findMember db communityId userId with
  | none => .error (.notFound "You are not a member of this community")
  | some member =>
      if member.role != CommunityRole.ADMIN && member.role != CommunityRole.OWNER then
        .error (.forbidden "Only admins or owners can perform this action")
      else
        .ok true

/-- `updateMemberRole` of the routed `CommunityController`
(`community.controller.ts`). The body schema admits every
`CommunityRole` (`z.nativeEnum(CommunityRole)`), `OWNER` included. The
only invariant guard is the last-admin check, applied when the target's
current role is `ADMIN` and the new role is not. -/
def updateMemberRole (db : DB) (actorId communityId targetUserId : String)
    (role : CommunityRole) : Except CtrlError (DB × Membership) :=
  match isUserAdminOrOwner db communityId actorId with
  | .error e => .error e
  | .ok _ =>
      match findMember db communityId targetUserId with
      | none => .error (.notFound "User is not a member of this community")
      | some member =>
          if member.role == CommunityRole.ADMIN && role != CommunityRole.ADMIN
              && adminCount db communityId <= 1 then
            .error (.conflict "Cannot demote the last admin")
          else
            .ok ({ db with
                    members := db.members.map (fun m =>
                      if m.communityId == communityId && m.userId == targetUserId then
                        { m with role := role }
                      else m) },
                  { member with role := role })

/-- `isUserAdminOrOwner` of the legacy controller in `task.controller.ts`:
returns a `Bool`, `false` when the membership is absent
(`member?.role === 'ADMIN' || member?.role === 'OWNER'`). -/
def isUserAdminOrOwnerLegacy (db : DB) (communityId userId : String) : Bool :=
  match findMember db communityId userId with
  | some member =>
      member.role == CommunityRole.ADMIN || member.role == CommunityRole.OWNER
  | none => false

/-- One lowercase hexadecimal digit, as produced by Node's
`Buffer.toString('hex')`: `'0'`..`'9'` then `'a'`..`'f'`. -/
def hexDigit (n : Nat) : Char :=
  if n < 10 then Char.ofNat (48 + n) else Char.ofNat (87 + n)

/-- Hex encoding of one byte: high nibble then low nibble. -/
def byteToHex (b : Nat) : List Char :=
  [hexDigit (b / 16), hexDigit (b % 16)]

/-- `Buffer.toString('hex')` over a byte list
(`crypto.randomBytes(n)` yields `n` bytes, each `< 256`). -/
def bytesToHex (bs : List Nat) : String :=
  ⟨bs.flatMap byteToHex⟩

/-- Milliseconds in a day; `expiresAt.setDate(expiresAt.getDate() + 7)`
advances the epoch timestamp by seven days. -/
def msPerDay : Nat := 86400000

/-- `generateInviteLink` of the legacy `CommunityController` in
`task.controller.ts`. The 32 random bytes drawn by
`crypto.randomBytes(32)` and the current time `now` (epoch ms) are
explicit inputs; `frontendUrl` is `process.env.FRONTEND_URL`. On success
returns the new state and the invite link. -/
def generateInviteLink (db : DB) (userId communityId : String)
    (randomBytes : List Nat) (now : Nat) (frontendUrl : String) :
    Except CtrlError (DB × String) :=
  if !(isUserAdminOrOwnerLegacy db communityId userId) then
    .error (.forbidden "Only admins can generate invite links")
  else
    let code := bytesToHex randomBytes
    let expiresAt := now + 7 * msPerDay
    .ok ({ db with invites := db.invites ++ [⟨code, communityId, userId, expiresAt⟩] },
          frontendUrl ++ "/join-community/" ++ code)

/-- Example state: community `c1` with one ADMIN and one VIEWER member. -/
def exDB1 : DB :=
  { communities := [⟨"c1", false⟩],
    members := [⟨"c1", "u1", CommunityRole.ADMIN⟩, ⟨"c1", "u2", CommunityRole.VIEWER⟩],
    invites := [] }

/-- Example state: public community `c1` with one OWNER member. -/
def exDB2 : DB :=
  { communities := [⟨"c1", false⟩],
    members := [⟨"c1", "u1", CommunityRole.OWNER⟩],
    invites := [] }

/-- Example state: private community `c1`, one OWNER member, and a
persisted, far-future (unexpired) invite bound to `c1`. -/
def exDB2c : DB :=
  { communities := [⟨"c1", true⟩],
    members := [⟨"c1", "u1", CommunityRole.OWNER⟩],
    invites := [⟨"deadbeef", "c1", "u1", 9999999999999⟩] }

/-- Example state: community `c1` with an OWNER, a VIEWER, and a pending
invite row. -/
def exDB3 : DB :=
  { communities := [⟨"c1", false⟩],
    members := [⟨"c1", "u1", CommunityRole.OWNER⟩, ⟨"c1", "u2", CommunityRole.VIEWER⟩],
    invites := [⟨"aabb", "c1", "u1", 123⟩] }

/-- Example state: community `c1` whose sole member is a VIEWER, with one
persisted invite row. -/
def exDB4 : DB :=
  { communities := [⟨"c1", false⟩],
    members := [⟨"c1", "u1", CommunityRole.VIEWER⟩],
    invites := [⟨"aabb", "c1", "u0", 123⟩] }

/-- Example state: community `c1` with a single ADMIN member. -/
def exDB9 : DB :=
  { communities := [⟨"c1", false⟩],
    members := [⟨"c1", "u1", CommunityRole.ADMIN⟩],
    invites := [] }

/-- Example state: community `c1` with OWNER `A` and VIEWER `B`. -/
def exDB10 : DB :=
  { communities := [⟨"c1", false⟩],
    members := [⟨"c1", "A", CommunityRole.OWNER⟩, ⟨"c1", "B", CommunityRole.VIEWER⟩],
    invites := [] }

end DevHub

namespace DevHub

/-- Auxiliary: a list containing two distinct elements has length at
least two. -/
theorem two_le_length_of_mem_ne {α : Type} {a b : α} {l : List α}
    (ha : a ∈ l) (hb : b ∈ l) (hab : a ≠ b) : 2 ≤ l.length := by
  induction l with
  | nil => cases ha
  | cons c t ih =>
      rcases List.mem_cons.mp ha with rfl | hat
      · rcases List.mem_cons.mp hb with rfl | hbt
        · exact absurd rfl hab
        · have h1 : 0 < t.length := List.length_pos_of_mem hbt
          simp only [List.length_cons]
          omega
      · rcases List.mem_cons.mp hb with rfl | hbt
        · have h1 : 0 < t.length := List.length_pos_of_mem hat
          simp only [List.length_cons]
          omega
        · have h2 := ih hat hbt
          simp only [List.length_cons]
          omega

/-- Auxiliary: `hexDigit` is injective on nibbles. -/
theorem hexDigit_injOn :
    ∀ m < 16, ∀ n < 16, hexDigit m = hexDigit n → m = n := by
  decide

/-- Auxiliary: `byteToHex` is injective on bytes. -/
theorem byteToHex_injOn {a b : Nat} (ha : a < 256) (hb : b < 256)
    (h : byteToHex a = byteToHex b) : a = b := by
  have h1 : hexDigit (a / 16) = hexDigit (b / 16) := by
    simpa [byteToHex] using congrArg (fun l => l.headI) h
  have h2 : hexDigit (a % 16) = hexDigit (b % 16) := by
    simpa [byteToHex] using congrArg (fun l => l.tail.headI) h
  have hda : a / 16 < 16 := Nat.div_lt_of_lt_mul (by omega)
  have hdb : b / 16 < 16 := Nat.div_lt_of_lt_mul (by omega)
  have hma : a % 16 < 16 := Nat.mod_lt _ (by omega)
  have hmb : b % 16 < 16 := Nat.mod_lt _ (by omega)
  have e1 := hexDigit_injOn _ hda _ hdb h1
  have e2 := hexDigit_injOn _ hma _ hmb h2
  omega

/-- Auxiliary: hex encoding is injective on equal-length byte lists. -/
theorem flatMap_byteToHex_injOn :
    ∀ (bs1 bs2 : List Nat), (∀ b ∈ bs1, b < 256) → (∀ b ∈ bs2, b < 256) →
      bs1.length = bs2.length →
      bs1.flatMap byteToHex = bs2.flatMap byteToHex → bs1 = bs2 := by
  intro bs1
  induction bs1 with
  | nil =>
      intro bs2 _ _ hlen _
      exact (List.eq_nil_of_length_eq_zero hlen.symm).symm
  | cons a t ih =>
      intro bs2 hv1 hv2 hlen hmap
      cases bs2 with
      | nil => simp at hlen
      | cons b u =>
          simp only [List.flatMap_cons, byteToHex, List.cons_append,
            List.nil_append] at hmap
          have e1 : hexDigit (a / 16) = hexDigit (b / 16) :=
            (List.cons.injEq _ _ _ _ ▸ hmap).1
          have hrest := (List.cons.injEq _ _ _ _ ▸ hmap).2
          have e2 : hexDigit (a % 16) = hexDigit (b % 16) :=
            (List.cons.injEq _ _ _ _ ▸ hrest).1
          have hrest2 := (List.cons.injEq _ _ _ _ ▸ hrest).2
          have ha : a < 256 := hv1 a (by simp)
          have hb : b < 256 := hv2 b (by simp)
          have hab : a = b := byteToHex_injOn ha hb (by simp [byteToHex, e1, e2])
          have htu : t = u := by
            refine ih u (fun x hx => hv1 x (by simp [hx]))
              (fun x hx => hv2 x (by simp [hx])) (by simpa using hlen) hrest2
          rw [hab, htu]

/-- Auxiliary: a hex token is two characters per byte. -/
theorem bytesToHex_length (bs : List Nat) :
    (bytesToHex bs).length = 2 * bs.length := by
  show (bs.flatMap byteToHex).length = 2 * bs.length
  induction bs with
  | nil => rfl
  | cons a t ih =>
      simp only [List.flatMap_cons, List.length_append, List.length_cons, ih, byteToHex]
      simp
      omega

/-- Auxiliary: `bytesToHex` is injective on equal-length byte lists. -/
theorem bytesToHex_injOn {bs1 bs2 : List Nat}
    (hv1 : ∀ b ∈ bs1, b < 256) (hv2 : ∀ b ∈ bs2, b < 256)
    (hlen : bs1.length = bs2.length)
    (h : bytesToHex bs1 = bytesToHex bs2) : bs1 = bs2 :=
  flatMap_byteToHex_injOn bs1 bs2 hv1 hv2 hlen (congrArg String.data h)


/-- Claim C6 (counterexample): The claim puts `CHANGE_MEMBER_ROLE` in
`ADMIN`'s permission set; in the source's `RolePermissions` table the
`ADMIN` list does not contain it. -/
theorem C6_admin_lacks_change_member_role :
    ((RolePermissions RoleType.ADMIN).contains Permission.CHANGE_MEMBER_ROLE) = false := by
  decide

/-- Claim C6 (amended): Exactly the role `OWNER` has `CHANGE_MEMBER_ROLE`
in its permission set: every other role of the table — `ADMIN` included —
lacks it. -/
theorem C6_change_member_role_exactly_owner :
    ∀ r : RoleType,
      Permission.CHANGE_MEMBER_ROLE ∈ RolePermissions r ↔ r = RoleType.OWNER := by
  decide

/-- Claim C7: The role-permission mapping is total with non-empty images
(it is a total Lean function, and no role maps to `[]`), and it is
nested: `OWNER ⊇ ADMIN ⊇ MANAGER ⊇ DEVELOPER III / II / I`, with
`DEVELOPER I` holding exactly `VIEW_ONLY`, `CREATE_TASK`, `EDIT_TASK`,
and `VIEWER` mapped to `DEVELOPER I`'s set by `roleMapping`. -/
theorem C7_role_permission_nesting :
    (∀ r : RoleType, RolePermissions r ≠ [])
    ∧ RolePermissions RoleType.ADMIN ⊆ RolePermissions RoleType.OWNER
    ∧ RolePermissions RoleType.MANAGER ⊆ RolePermissions RoleType.ADMIN
    ∧ RolePermissions RoleType.DEVELOPER_III ⊆ RolePermissions RoleType.MANAGER
    ∧ RolePermissions RoleType.DEVELOPER_II ⊆ RolePermissions RoleType.MANAGER
    ∧ RolePermissions RoleType.DEVELOPER_I ⊆ RolePermissions RoleType.MANAGER
    ∧ (∀ p : Permission,
        p ∈ RolePermissions RoleType.DEVELOPER_I ↔
          (p = Permission.VIEW_ONLY ∨ p = Permission.CREATE_TASK
            ∨ p = Permission.EDIT_TASK))
    ∧ roleMapping CommunityRole.VIEWER = RoleType.DEVELOPER_I := by
  refine ⟨by decide, ?_, ?_, ?_, ?_, ?_, by decide, rfl⟩ <;>
    · intro p hp
      revert hp
      revert p
      decide

/-- Claim C8: `roleGuard` is Denied (`Except.error`) when the role is
absent, and on a present role it is `Ok` exactly when every required
permission lies in the role's permission set; as a pure function it has
no side effects on any state. -/
theorem C8_role_guard_subset :
    ∀ (req : List Permission) (r : CommunityRole),
      roleGuard none req = .error "Unauthorized"
      ∧ (roleGuard (some r) req = .ok () ↔
          ∀ p ∈ req, p ∈ RolePermissions (roleMapping r)) := by
  intro req r
  refine ⟨rfl, ?_⟩
  simp only [roleGuard]
  by_cases h : req.all
      (fun permission => (RolePermissions (roleMapping r)).contains permission) = true
  · rw [if_pos h]
    simp only [List.all_eq_true] at h
    exact iff_of_true rfl (fun p hp => List.elem_iff.mp (h p hp))
  · rw [if_neg h]
    constructor
    · intro hc
      exact Except.noConfusion hc
    · intro hall
      exact absurd (List.all_eq_true.mpr fun p hp => List.elem_iff.mpr (hall p hp)) h


/-- Claim C6 witness: `CHANGE_MEMBER_ROLE` is in OWNER's permission set. -/
theorem C6_change_member_role_exactly_owner_witness :
    Permission.CHANGE_MEMBER_ROLE ∈ RolePermissions RoleType.OWNER :=
  (C6_change_member_role_exactly_owner RoleType.OWNER).mpr rfl

/-- Claim C7 witness: applying the `ADMIN ⊆ OWNER` inclusion at the
concrete permission `VIEW_ONLY`. -/
theorem C7_role_permission_nesting_witness :
    Permission.VIEW_ONLY ∈ RolePermissions RoleType.OWNER :=
  C7_role_permission_nesting.2.1 (by decide)

/-- Claim C8 witness: guard evaluations at concrete arguments. -/
theorem C8_role_guard_subset_witness :
    roleGuard none [Permission.VIEW_ONLY] = .error "Unauthorized"
    ∧ roleGuard (some CommunityRole.OWNER) [Permission.CHANGE_MEMBER_ROLE] = .ok () :=
  ⟨(C8_role_guard_subset [Permission.VIEW_ONLY] CommunityRole.OWNER).1,
   (C8_role_guard_subset [Permission.CHANGE_MEMBER_ROLE] CommunityRole.OWNER).2.mpr
     (by decide)⟩

/-- Claim C1: the ADMIN count of a community cannot be driven to zero by
`leaveCommunity` or `updateMemberRole`. Leave by a member whose role is
`ADMIN` while the community's ADMIN count is at most 1 fails with the
Conflict error "Cannot leave as the last admin", and `updateMemberRole`
whose target currently holds `ADMIN`, with a non-`ADMIN` `newRole`, fails
with the Conflict error "Cannot demote the last admin" whenever the ADMIN
count is at most 1. An error result carries no successor state, so
neither operation mutates anything on these paths. -/
theorem C1_last_admin_guards :
    (∀ (db : DB) (communityId userId : String) (c : Community) (m : Membership),
      findCommunity db communityId = some c →
      findMember db communityId userId = some m →
      m.role = CommunityRole.ADMIN →
      adminCount db communityId ≤ 1 →
      leaveCommunity db userId communityId =
        .error (.conflict "Cannot leave as the last admin"))
    ∧ (∀ (db : DB) (communityId actorId targetId : String) (tm : Membership)
        (newRole : CommunityRole),
      isUserAdminOrOwner db communityId actorId = .ok true →
      findMember db communityId targetId = some tm →
      tm.role = CommunityRole.ADMIN →
      newRole ≠ CommunityRole.ADMIN →
      adminCount db communityId ≤ 1 →
      updateMemberRole db actorId communityId targetId newRole =
        .error (.conflict "Cannot demote the last admin")) := by
  constructor
  · intro db communityId userId c m hc hm hrole hcount
    simp [leaveCommunity, hc, hm, hrole, hcount]
  · intro db communityId actorId targetId tm newRole hauth htm hrole hnew hcount
    simp [updateMemberRole, hauth, htm, hrole, hnew, hcount]

/-- Claim C1 witness: in `exDB1` the sole ADMIN `u1` can neither leave nor
be demoted. -/
theorem C1_last_admin_guards_witness :
    leaveCommunity exDB1 "u1" "c1" =
      .error (.conflict "Cannot leave as the last admin")
    ∧ updateMemberRole exDB1 "u1" "c1" "u1" CommunityRole.VIEWER =
        .error (.conflict "Cannot demote the last admin") :=
  ⟨C1_last_admin_guards.1 exDB1 "c1" "u1" ⟨"c1", false⟩
      ⟨"c1", "u1", CommunityRole.ADMIN⟩ rfl rfl rfl (by decide),
   C1_last_admin_guards.2 exDB1 "c1" "u1" "u1" ⟨"c1", "u1", CommunityRole.ADMIN⟩
      CommunityRole.VIEWER rfl rfl rfl (by decide) (by decide)⟩

/-- Claim C2 (counterexample): in `exDB2c` a valid, unexpired invite bound
to the private community `c1` is persisted and the actor `u2` is not a
member, yet `joinCommunity` still fails with Forbidden — contradicting
the claim that Join succeeds when such a token is supplied (the Join
operation of the source accepts no token and never reads the invite
table). -/
theorem C2_private_join_ignores_valid_invite :
    (∃ i ∈ exDB2c.invites, i.communityId = "c1" ∧ (1760140800000 : Nat) < i.expiresAt)
    ∧ findMember exDB2c "c1" "u2" = none
    ∧ findCommunity exDB2c "c1" = some ⟨"c1", true⟩
    ∧ joinCommunity exDB2c "u2" "c1" =
        .error (.forbidden "Cannot join private community without invite") := by
  refine ⟨⟨⟨"deadbeef", "c1", "u1", 9999999999999⟩, by decide, rfl, by norm_num⟩,
    rfl, rfl, rfl⟩

/-- Claim C2 (amended): for an existing community, Join on a private
community always fails with Forbidden (no invite token is consulted);
Join by a non-member on a public community succeeds, appending a
Membership with the lowest role `VIEWER`; and Join by an actor who is
already a member of a public community fails with the Conflict error
"User is already a member of this community". -/
theorem C2_join_semantics :
    ∀ (db : DB) (userId communityId : String) (c : Community),
      findCommunity db communityId = some c →
      (c.isPrivate = true →
        joinCommunity db userId communityId =
          .error (.forbidden "Cannot join private community without invite"))
      ∧ (c.isPrivate = false → findMember db communityId userId = none →
          joinCommunity db userId communityId =
            .ok ({ db with members :=
                    db.members ++ [⟨communityId, userId, CommunityRole.VIEWER⟩] },
                  ⟨communityId, userId, CommunityRole.VIEWER⟩))
      ∧ (c.isPrivate = false → ∀ m, findMember db communityId userId = some m →
          joinCommunity db userId communityId =
            .error (.conflict "User is already a member of this community")) := by
  intro db userId communityId c hc
  refine ⟨?_, ?_, ?_⟩
  · intro hp
    simp [joinCommunity, hc, hp]
  · intro hp hnm
    simp [joinCommunity, hc, hp, hnm]
  · intro hp m hm
    simp [joinCommunity, hc, hp, hm]

/-- Claim C2 witness: concrete joins on the public community of `exDB2`
and the private community of `exDB2c`. -/
theorem C2_join_semantics_witness :
    joinCommunity exDB2 "u2" "c1" =
      .ok (⟨[⟨"c1", false⟩],
            [⟨"c1", "u1", CommunityRole.OWNER⟩, ⟨"c1", "u2", CommunityRole.VIEWER⟩],
            []⟩,
           ⟨"c1", "u2", CommunityRole.VIEWER⟩)
    ∧ joinCommunity exDB2 "u1" "c1" =
        .error (.conflict "User is already a member of this community")
    ∧ joinCommunity exDB2c "u2" "c1" =
        .error (.forbidden "Cannot join private community without invite") :=
  ⟨(C2_join_semantics exDB2 "u2" "c1" ⟨"c1", false⟩ rfl).2.1 rfl rfl,
   (C2_join_semantics exDB2 "u1" "c1" ⟨"c1", false⟩ rfl).2.2 rfl
     ⟨"c1", "u1", CommunityRole.OWNER⟩ rfl,
   (C2_join_semantics exDB2c "u2" "c1" ⟨"c1", true⟩ rfl).1 rfl⟩

/-- Claim C3: Leave by an OWNER deletes, in the same transaction, every
Membership row of the community, every Invite row of the community, and
the Community row itself — the result state filters all three tables on
the community id, so no orphaned row referencing it remains — and
returns the "Community deleted as owner left" outcome, distinct from the
plain "Left the community successfully" outcome of a non-owner Leave. -/
theorem C3_owner_leave_cascade :
    ∀ (db : DB) (communityId userId : String) (c : Community) (m : Membership),
      findCommunity db communityId = some c →
      findMember db communityId userId = some m →
      m.role = CommunityRole.OWNER →
      leaveCommunity db userId communityId =
        .ok ({ db with
                members := db.members.filter (fun mm => !(mm.communityId == communityId)),
                invites := db.invites.filter (fun i => !(i.communityId == communityId)),
                communities := db.communities.filter (fun cc => !(cc.id == communityId)) },
              "Community deleted as owner left")
      ∧ (∀ mm ∈ db.members.filter (fun mm => !(mm.communityId == communityId)),
          mm.communityId ≠ communityId)
      ∧ (∀ i ∈ db.invites.filter (fun i => !(i.communityId == communityId)),
          i.communityId ≠ communityId)
      ∧ (∀ cc ∈ db.communities.filter (fun cc => !(cc.id == communityId)),
          cc.id ≠ communityId)
      ∧ "Community deleted as owner left" ≠ "Left the community successfully" := by
  intro db communityId userId c m hc hm hrole
  refine ⟨by simp [leaveCommunity, hc, hm, hrole], ?_, ?_, ?_, by decide⟩
  · intro mm hmm
    simp [List.mem_filter] at hmm
    exact hmm.2
  · intro i hi
    simp [List.mem_filter] at hi
    exact hi.2
  · intro cc hcc
    simp [List.mem_filter] at hcc
    exact hcc.2

/-- Claim C3 witness: the owner of `exDB3` leaves; the community, both
memberships and the pending invite are all gone. -/
theorem C3_owner_leave_cascade_witness :
    leaveCommunity exDB3 "u1" "c1" =
      .ok (⟨[], [], []⟩, "Community deleted as owner left") :=
  (C3_owner_leave_cascade exDB3 "c1" "u1" ⟨"c1", false⟩
    ⟨"c1", "u1", CommunityRole.OWNER⟩ rfl rfl rfl).1


/-- Claim C4 (code divergence): in `exDB4` the sole member (a VIEWER)
leaves. The routed controller's orphan-cleanup deletes only the
`Community` row — the community's `Invite` row survives as an orphan —
while the legacy controller in `task.controller.ts` deletes the invites
too, as the claim describes. -/
theorem C4_orphan_cleanup_leaves_invites :
    leaveCommunity exDB4 "u1" "c1" =
      .ok (⟨[], [], [⟨"aabb", "c1", "u0", 123⟩]⟩, "Left the community successfully")
    ∧ leaveCommunityLegacy exDB4 "u1" "c1" =
        .ok (⟨[], [], []⟩, "Left the community successfully") :=
  ⟨rfl, rfl⟩

/-- Claim C5 (counterexample): running the claim's scenario — A creates
`c1` (becoming OWNER), B joins (VIEWER), A promotes B to ADMIN — B's
demotion of A (an OWNER) to VIEWER does not fail with Forbidden: it
succeeds and mutates A's Membership row to VIEWER. -/
theorem C5_admin_demotes_owner_succeeds :
    (createCommunity ⟨[], [], []⟩ "A" "c1" false).1 =
      ⟨[⟨"c1", false⟩], [⟨"c1", "A", CommunityRole.OWNER⟩], []⟩
    ∧ joinCommunity ⟨[⟨"c1", false⟩], [⟨"c1", "A", CommunityRole.OWNER⟩], []⟩ "B" "c1" =
        .ok (⟨[⟨"c1", false⟩],
              [⟨"c1", "A", CommunityRole.OWNER⟩, ⟨"c1", "B", CommunityRole.VIEWER⟩], []⟩,
             ⟨"c1", "B", CommunityRole.VIEWER⟩)
    ∧ updateMemberRole
        ⟨[⟨"c1", false⟩],
         [⟨"c1", "A", CommunityRole.OWNER⟩, ⟨"c1", "B", CommunityRole.VIEWER⟩], []⟩
        "A" "c1" "B" CommunityRole.ADMIN =
        .ok (⟨[⟨"c1", false⟩],
              [⟨"c1", "A", CommunityRole.OWNER⟩, ⟨"c1", "B", CommunityRole.ADMIN⟩], []⟩,
             ⟨"c1", "B", CommunityRole.ADMIN⟩)
    ∧ updateMemberRole
        ⟨[⟨"c1", false⟩],
         [⟨"c1", "A", CommunityRole.OWNER⟩, ⟨"c1", "B", CommunityRole.ADMIN⟩], []⟩
        "B" "c1" "A" CommunityRole.VIEWER =
        .ok (⟨[⟨"c1", false⟩],
              [⟨"c1", "A", CommunityRole.VIEWER⟩, ⟨"c1", "B", CommunityRole.ADMIN⟩], []⟩,
             ⟨"c1", "A", CommunityRole.VIEWER⟩) :=
  ⟨rfl, rfl, rfl, rfl⟩

/-- Claim C5 (amended): an actor holding ADMIN or OWNER may change the
role of a member whose current role is OWNER — the code places no guard
on demoting an OWNER (its only guards are the admin-or-owner check on the
actor and the last-admin check on ADMIN targets), so B's demotion of A to
VIEWER succeeds and overwrites A's role. -/
theorem C5_admin_can_demote_owner :
    ∀ (db : DB) (communityId actorId targetId : String) (am tm : Membership)
      (newRole : CommunityRole),
      findMember db communityId actorId = some am →
      (am.role = CommunityRole.ADMIN ∨ am.role = CommunityRole.OWNER) →
      findMember db communityId targetId = some tm →
      tm.role = CommunityRole.OWNER →
      updateMemberRole db actorId communityId targetId newRole =
        .ok ({ db with members := db.members.map fun m =>
                if m.communityId == communityId && m.userId == targetId then
                  { m with role := newRole }
                else m },
              { tm with role := newRole }) := by
  intro db communityId actorId targetId am tm newRole ham hrole htm htrole
  have hauth : isUserAdminOrOwner db communityId actorId = .ok true := by
    rcases hrole with h | h <;> simp [isUserAdminOrOwner, ham, h]
  simp [updateMemberRole, hauth, htm, htrole]

/-- Claim C5 witness: the demotion step of the scenario, via the general
theorem. -/
theorem C5_admin_can_demote_owner_witness :
    updateMemberRole
      ⟨[⟨"c1", false⟩],
       [⟨"c1", "A", CommunityRole.OWNER⟩, ⟨"c1", "B", CommunityRole.ADMIN⟩], []⟩
      "B" "c1" "A" CommunityRole.VIEWER =
      .ok (⟨[⟨"c1", false⟩],
            [⟨"c1", "A", CommunityRole.VIEWER⟩, ⟨"c1", "B", CommunityRole.ADMIN⟩], []⟩,
           ⟨"c1", "A", CommunityRole.VIEWER⟩) :=
  C5_admin_can_demote_owner
    ⟨[⟨"c1", false⟩],
     [⟨"c1", "A", CommunityRole.OWNER⟩, ⟨"c1", "B", CommunityRole.ADMIN⟩], []⟩
    "c1" "B" "A" ⟨"c1", "B", CommunityRole.ADMIN⟩ ⟨"c1", "A", CommunityRole.OWNER⟩
    CommunityRole.VIEWER rfl (Or.inl rfl) rfl rfl


/-- Claim C9: `generateInviteLink` fails with Forbidden unless the
actor's membership role is ADMIN or OWNER (a non-member also gets
Forbidden); on success it persists exactly one invite whose code is the
hex encoding of the 32 random bytes and whose expiry is exactly 7 days
(in epoch milliseconds) after issuance, and returns a link embedding the
code. The token is 64 hex characters — 4 bits each, 256 ≥ 128 bits — and
the encoding is injective on 32-byte draws, so distinct draws give
distinct tokens. -/
theorem C9_invite_issuance :
    ∀ (db : DB) (userId communityId : String) (randomBytes : List Nat)
      (now : Nat) (frontendUrl : String),
      randomBytes.length = 32 →
      (∀ b ∈ randomBytes, b < 256) →
      (findMember db communityId userId = none →
        generateInviteLink db userId communityId randomBytes now frontendUrl =
          .error (.forbidden "Only admins can generate invite links"))
      ∧ (∀ m, findMember db communityId userId = some m →
          m.role ≠ CommunityRole.ADMIN → m.role ≠ CommunityRole.OWNER →
          generateInviteLink db userId communityId randomBytes now frontendUrl =
            .error (.forbidden "Only admins can generate invite links"))
      ∧ (∀ m, findMember db communityId userId = some m →
          (m.role = CommunityRole.ADMIN ∨ m.role = CommunityRole.OWNER) →
          generateInviteLink db userId communityId randomBytes now frontendUrl =
            .ok ({ db with invites := db.invites ++
                    [⟨bytesToHex randomBytes, communityId, userId, now + 7 * msPerDay⟩] },
                  frontendUrl ++ "/join-community/" ++ bytesToHex randomBytes))
      ∧ (bytesToHex randomBytes).length = 64
      ∧ 128 ≤ 4 * (bytesToHex randomBytes).length
      ∧ (∀ bs2 : List Nat, bs2.length = 32 → (∀ b ∈ bs2, b < 256) →
          bytesToHex randomBytes = bytesToHex bs2 → randomBytes = bs2) := by
  intro db userId communityId randomBytes now frontendUrl hlen hval
  refine ⟨?_, ?_, ?_, ?_, ?_, ?_⟩
  · intro hnm
    simp [generateInviteLink, isUserAdminOrOwnerLegacy, hnm]
  · intro m hm h1 h2
    simp [generateInviteLink, isUserAdminOrOwnerLegacy, hm, h1, h2]
  · intro m hm hrole
    rcases hrole with h | h <;>
      simp [generateInviteLink, isUserAdminOrOwnerLegacy, hm, h]
  · rw [bytesToHex_length, hlen]
  · rw [bytesToHex_length, hlen]
    omega
  · intro bs2 hlen2 hval2 heq
    exact bytesToHex_injOn hval hval2 (by rw [hlen, hlen2]) heq

/-- Claim C9 witness: the ADMIN `u1` of `exDB9` issues an invite from a
concrete 32-byte draw at time 0. -/
theorem C9_invite_issuance_witness :
    generateInviteLink exDB9 "u1" "c1" (List.replicate 32 0) 0 "https://app" =
      .ok ({ exDB9 with invites :=
              [⟨bytesToHex (List.replicate 32 0), "c1", "u1", 0 + 7 * msPerDay⟩] },
            "https://app" ++ "/join-community/" ++ bytesToHex (List.replicate 32 0)) :=
  (C9_invite_issuance exDB9 "u1" "c1" (List.replicate 32 0) 0 "https://app"
      rfl (by decide)).2.2.1 ⟨"c1", "u1", CommunityRole.ADMIN⟩ rfl (Or.inl rfl)

/-- Claim C10: `updateMemberRole` places no restriction on `newRole`
being OWNER. When the actor passes the admin-or-owner check and the
target is a member whose current role is not ADMIN (or at least two
ADMINs exist), setting the target's role to OWNER succeeds; the result
state maps only the target's row to OWNER, every other Membership row —
the existing OWNER's included — is carried over unchanged, and if some
other member of the community already holds OWNER, the result has at
least two OWNER members. -/
theorem C10_promote_to_owner :
    ∀ (db : DB) (communityId actorId targetId : String) (tm : Membership),
      isUserAdminOrOwner db communityId actorId = .ok true →
      findMember db communityId targetId = some tm →
      (tm.role ≠ CommunityRole.ADMIN ∨ 2 ≤ adminCount db communityId) →
      ∃ db1 : DB,
        updateMemberRole db actorId communityId targetId CommunityRole.OWNER =
          .ok (db1, { tm with role := CommunityRole.OWNER })
        ∧ db1.members = db.members.map (fun m =>
            if m.communityId == communityId && m.userId == targetId then
              { m with role := CommunityRole.OWNER } else m)
        ∧ db1.communities = db.communities
        ∧ db1.invites = db.invites
        ∧ findMember db1 communityId targetId = some { tm with role := CommunityRole.OWNER }
        ∧ (∀ m ∈ db.members, m.userId ≠ targetId ∨ m.communityId ≠ communityId →
            m ∈ db1.members)
        ∧ (∀ o ∈ db.members, o.communityId = communityId →
            o.role = CommunityRole.OWNER → o.userId ≠ targetId →
            2 ≤ ownerCount db1 communityId) := by
  intro db communityId actorId targetId tm hauth htm hguard
  refine ⟨{ db with members := db.members.map (fun m =>
      if m.communityId == communityId && m.userId == targetId then
        { m with role := CommunityRole.OWNER } else m) }, ?_, rfl, rfl, rfl, ?_, ?_, ?_⟩
  · rcases hguard with h | h
    · simp [updateMemberRole, hauth, htm, h]
    · have h1 : ¬ (adminCount db communityId ≤ 1) := by omega
      simp [updateMemberRole, hauth, htm, h1]
  · have htm' : db.members.find?
        (fun m => m.communityId == communityId && m.userId == targetId) = some tm := htm
    have hptm := List.find?_some htm'
    have hcomp : ((fun m : Membership => m.communityId == communityId && m.userId == targetId)
          ∘ (fun m : Membership =>
              if m.communityId == communityId && m.userId == targetId then
                { m with role := CommunityRole.OWNER } else m))
        = (fun m : Membership => m.communityId == communityId && m.userId == targetId) := by
      funext m
      by_cases h : (m.communityId == communityId && m.userId == targetId) = true
      · simp [Function.comp, h]
      · simp [Function.comp, h]
    show (db.members.map _).find? _ = _
    rw [List.find?_map, hcomp, htm']
    simp only [Option.map_some']
    rw [if_pos hptm]
  · intro m hm hkey
    refine List.mem_map.mpr ⟨m, hm, ?_⟩
    have hfalse : (m.communityId == communityId && m.userId == targetId) = false := by
      rcases hkey with h | h <;> simp [h]
    simp [hfalse]
  · intro o ho hoc hor hou
    have htm' : db.members.find?
        (fun m => m.communityId == communityId && m.userId == targetId) = some tm := htm
    have hptm := List.find?_some htm'
    have htmem : tm ∈ db.members := List.mem_of_find?_eq_some htm'
    have htmid : tm.communityId = communityId := by
      have := (Bool.and_eq_true _ _).mp hptm |>.1
      exact beq_iff_eq.mp this
    have htuid : tm.userId = targetId := by
      have := (Bool.and_eq_true _ _).mp hptm |>.2
      exact beq_iff_eq.mp this
    have h1 : ({ tm with role := CommunityRole.OWNER } : Membership) ∈
        db.members.map (fun m : Membership =>
          if m.communityId == communityId && m.userId == targetId then
            { m with role := CommunityRole.OWNER } else m) :=
      List.mem_map.mpr ⟨tm, htmem, by simp [hptm]⟩
    have h2 : o ∈ db.members.map (fun m : Membership =>
          if m.communityId == communityId && m.userId == targetId then
            { m with role := CommunityRole.OWNER } else m) :=
      List.mem_map.mpr ⟨o, ho, by simp [hou]⟩
    have hne : ({ tm with role := CommunityRole.OWNER } : Membership) ≠ o := by
      intro heq
      have h3 := congrArg Membership.userId heq
      simp only [] at h3
      rw [htuid] at h3
      exact hou h3.symm
    refine two_le_length_of_mem_ne
      (List.mem_filter.mpr ⟨h1, ?_⟩) (List.mem_filter.mpr ⟨h2, ?_⟩) hne
    · simp [htmid]
    · simp [hoc, hor]

/-- Claim C10 witness: in `exDB10` the OWNER `A` promotes the VIEWER `B`
to OWNER; the result has two OWNER members. -/
theorem C10_promote_to_owner_witness :
    ∃ db1 : DB,
      updateMemberRole exDB10 "A" "c1" "B" CommunityRole.OWNER =
        .ok (db1, ⟨"c1", "B", CommunityRole.OWNER⟩)
      ∧ 2 ≤ ownerCount db1 "c1" := by
  obtain ⟨db1, h1, _, _, _, _, _, h7⟩ :=
    C10_promote_to_owner exDB10 "c1" "A" "B" ⟨"c1", "B", CommunityRole.VIEWER⟩
      rfl rfl (Or.inl (by decide))
  exact ⟨db1, h1, h7 ⟨"c1", "A", CommunityRole.OWNER⟩ (by decide) rfl rfl (by decide)⟩

end DevHub
